import Mathlib

/-
Verification of the device-session registry and ECG classification helper of
the IoT cardiac-anomaly backend (src/backend/main.py and
src/backend/ecg_processing.py), as a shallow embedding in Lean 4.

Modelling conventions:
* JSON values carried in requests/responses are modelled by the inductive
  type JVal; JSON objects (Python dicts) are association lists of
  (key, value) pairs in insertion order, matching CPython dict semantics.
* Wall-clock time (Python time.time()) is an explicit natural-number
  parameter t passed to each operation.  Nat subtraction truncates at 0,
  which coincides with the Python code's behaviour for the staleness test
  (a non-positive age is never > 300).
* The global dict device_data becomes an explicit Registry value threaded
  through the operations; each handler returns the new registry together
  with its JSON response.
* Pydantic validation of ECGData is modelled at the JSON-type level of the
  field annotations (hr: float, spo2: float, ecg: List[float],
  rest_ecg: Optional[int] = 0, timestamp: Optional[str] = None).
-/

namespace IoTECG

/-- JSON-like values as delivered by the HTTP layer to the handlers. -/
inductive JVal where
  | num (q : ℚ)
  | str (s : String)
  | bool (b : Bool)
  | null
  | arr (xs : List JVal)
  | obj (fields : List (String × JVal))

/-- A JSON object / Python dict: association list in insertion order. -/
abbrev Payload := List (String × JVal)

/-- Dict lookup: value of the first (in well-formed dicts, only) binding of a key. -/
def plookup (p : Payload) (k : String) : Option JVal :=
  match p with
  | [] => none
  | (k', v) :: rest => if k' = k then some v else plookup rest k

/-- Dict assignment d[k] = v: replaces the value in place when the key is
present (keeping its position, as CPython does), appends otherwise. -/
def setKey (p : Payload) (k : String) (v : JVal) : Payload :=
  match p with
  | [] => [(k, v)]
  | (k', v') :: rest => if k' = k then (k', v) :: rest else (k', v') :: setKey rest k v

/-- One session record, the value stored in device_data for one esp_id.
Field order follows the dict literal in start_measurement. -/
structure Entry where
  latest : Payload
  ready : Bool
  last_update : ℕ
  status : String
  collecting : Bool

/-- The global device_data dict: esp_id-keyed association list in insertion order. -/
abbrev Registry := List (String × Entry)

/-- Registry lookup by device id. -/
def rlookup (r : Registry) (id : String) : Option Entry :=
  match r with
  | [] => none
  | (k, e) :: rest => if k = id then some e else rlookup rest id

/-- Registry assignment device_data[id] = e (replace in place or append). -/
def rinsert (r : Registry) (id : String) (e : Entry) : Registry :=
  match r with
  | [] => [(id, e)]
  | (k, e') :: rest => if k = id then (k, e) :: rest else (k, e') :: rinsert rest id e

/-- Registry deletion del device_data[id]. -/
def rerase (r : Registry) (id : String) : Registry :=
  match r with
  | [] => []
  | (k, e) :: rest => if k = id then rest else (k, e) :: rerase rest id

/-- The validated ECGData pydantic model (class ECGData in main.py). -/
structure ECGData where
  hr : ℚ
  spo2 : ℚ
  ecg : List ℚ
  rest_ecg : Option ℤ
  timestamp : Option String
deriving DecidableEq, Repr

/-- Longest leading run of decimal digits of a character list: their value,
their count and the remaining characters. -/
def takeDigits : List Char → ℕ × ℕ × List Char
  | [] => (0, 0, [])
  | c :: cs =>
    if c.isDigit then
      let (v, k, rest) := takeDigits cs
      ((c.toNat - 48) * 10 ^ k + v, k + 1, rest)
    else (0, 0, c :: cs)

/-- Exponent suffix of a decimal literal: optional sign and at least one
digit, nothing after. -/
def parseExpPart (cs : List Char) : Option ℤ :=
  let step : ℤ × List Char :=
    match cs with
    | '+' :: rest => (1, rest)
    | '-' :: rest => (-1, rest)
    | rest => (1, rest)
  let (ev, ek, cs2) := takeDigits step.2
  if ek = 0 then none
  else
    match cs2 with
    | [] => some (step.1 * (ev : ℤ))
    | _ => none

/-- Decimal-literal strings that pydantic's default (lax) validation coerces
to numbers: optional sign, an integer and/or fractional digit part with at
least one digit overall, and an optional decimal exponent (e.g. "1.2",
"-3", "2e1", ".5").  Python's float() additionally accepts a few exotic
forms (inf/nan words, digit-group underscores, surrounding whitespace);
those are outside every failure case asserted by the theorems below, whose
conclusions never rely on a string being rejected by this parser. -/
def parseDecimal (s : String) : Option ℚ :=
  let step1 : ℤ × List Char :=
    match s.data with
    | '+' :: rest => (1, rest)
    | '-' :: rest => (-1, rest)
    | cs => (1, cs)
  let (ip, ik, cs2) := takeDigits step1.2
  let step3 : ℕ × ℕ × List Char :=
    match cs2 with
    | '.' :: rest => takeDigits rest
    | rest => (0, 0, rest)
  let fp := step3.1
  let fk := step3.2.1
  let cs3 := step3.2.2
  if ik + fk = 0 then none
  else
    let mant : ℚ := ((step1.1 * ((ip * 10 ^ fk + fp : ℕ) : ℤ) : ℤ) : ℚ) / (10 : ℚ) ^ fk
    match cs3 with
    | [] => some mant
    | 'e' :: rest =>
      match parseExpPart rest with
      | some e => some (mant * (10 : ℚ) ^ e)
      | none => none
    | 'E' :: rest =>
      match parseExpPart rest with
      | some e => some (mant * (10 : ℚ) ^ e)
      | none => none
    | _ => none

/-- A JSON value acceptable for a float-annotated field under pydantic's
default lax validation: a JSON number, or a string coerced as a decimal
literal.  null, lists and objects are never accepted. -/
def asFloat (v : JVal) : Option ℚ :=
  match v with
  | .num q => some q
  | .str s => parseDecimal s
  | _ => none

/-- A JSON value acceptable for an int-annotated field under pydantic's
lax validation: an integral number, or a string coerced to an integral
number. -/
def asInt (v : JVal) : Option ℤ :=
  match v with
  | .num q => if q.den = 1 then some q.num else none
  | .str s =>
    match parseDecimal s with
    | some q => if q.den = 1 then some q.num else none
    | none => none
  | _ => none

/-- Whether a JSON value is a list. -/
def isArr (v : JVal) : Bool :=
  match v with
  | .arr _ => true
  | _ => false

/-- JSON values that no pydantic validation mode or version coerces to a
float: null, a nested list, or a nested object.  (Numbers and numeric
strings coerce; booleans and exotic string forms are version- or
grammar-dependent, so the upload-failure theorem only asserts rejection for
these unambiguous cases.) -/
def neverFloat (v : JVal) : Bool :=
  match v with
  | .null => true
  | .arr _ => true
  | .obj _ => true
  | _ => false

/-- A JSON value acceptable for a List[float]-annotated field. -/
def asFloatList (v : JVal) : Option (List ℚ) :=
  match v with
  | .arr xs => xs.mapM asFloat
  | _ => none

/-- Validation of the optional rest_ecg field (Optional[int] = 0). -/
def validateRest (p : Payload) : Except String (Option ℤ) :=
  match plookup p "rest_ecg" with
  | none => .ok (some 0)
  | some .null => .ok none
  | some v =>
    match asInt v with
    | none => .error "rest_ecg: value is not a valid integer"
    | some z => .ok (some z)

/-- Validation of the optional timestamp field (Optional[str] = None). -/
def validateTimestamp (p : Payload) : Except String (Option String) :=
  match plookup p "timestamp" with
  | none => .ok none
  | some .null => .ok none
  | some (.str s) => .ok (some s)
  | some _ => .error "timestamp: str type expected"

/-- Validation performed by ECGData(**payload): the required fields hr, spo2
and ecg must be present with values coercible to the annotated types under
pydantic's default lax mode (numbers, or decimal-literal strings such as
"1.2"); rest_ecg and timestamp are optional with defaults 0 and None; extra
keys are ignored (pydantic default). -/
def validateECG (p : Payload) : Except String ECGData :=
  match plookup p "hr" with
  | none => .error "hr: field required"
  | some vhr =>
    match asFloat vhr with
    | none => .error "hr: value is not a valid float"
    | some hr =>
      match plookup p "spo2" with
      | none => .error "spo2: field required"
      | some vspo2 =>
        match asFloat vspo2 with
        | none => .error "spo2: value is not a valid float"
        | some spo2 =>
          match plookup p "ecg" with
          | none => .error "ecg: field required"
          | some vecg =>
            match asFloatList vecg with
            | none => .error "ecg: value is not a valid list of floats"
            | some ecg =>
              match validateRest p with
              | .error e => .error e
              | .ok rest_ecg =>
                match validateTimestamp p with
                | .error e => .error e
                | .ok timestamp =>
                    .ok { hr := hr, spo2 := spo2, ecg := ecg,
                          rest_ecg := rest_ecg, timestamp := timestamp }

/-- GET /start/esp_id (start_measurement): overwrite the session with a fresh
collecting record and acknowledge.  Always succeeds. -/
def start_measurement (r : Registry) (id : String) (t : ℕ) : Registry × Payload :=
  (rinsert r id { latest := [], ready := false, last_update := t,
                  status := "collecting", collecting := true },
   [("status", .str "collecting"),
    ("esp_id", .str id),
    ("message", .str ("Measurement started for " ++ id))])

/-- POST /data/esp_id (receive_data): validate the payload; on success store
the raw payload dict in a ready record; on validation failure leave the
registry untouched and answer HTTP 400 with a descriptive detail message. -/
def receive_data (r : Registry) (id : String) (p : Payload) (t : ℕ) :
    Registry × Except String Payload :=
  match validateECG p with
  | .ok _ =>
      (rinsert r id { latest := p, ready := true, last_update := t,
                      status := "ready", collecting := false },
       .ok [("status", .str "ok"),
            ("message", .str "Data received successfully"),
            ("esp_id", .str id)])
  | .error e => (r, .error ("Invalid data format: " ++ e))

/-- GET /latest/esp_id (get_latest): the poll endpoint.  Unknown ids are
auto-initialized in idle state; known ids are answered read-only, with
staleness recomputed lazily from the current time. -/
def get_latest (r : Registry) (id : String) (t : ℕ) : Registry × Payload :=
  match rlookup r id with
  | none =>
      (rinsert r id { latest := [], ready := false, last_update := t,
                      status := "idle", collecting := false },
       [("status", .str "idle"),
        ("message", .str "Device initialized, waiting for start signal")])
  | some info =>
      if 300 < t - info.last_update ∧ info.ready = true then
        (r, [("status", .str "stale"),
             ("message", .str "Data is too old, please start new measurement")])
      else if info.collecting = true then
        (r, [("status", .str "collecting"),
             ("message", .str "Start data collection now")])
      else if info.ready = false ∧ info.collecting = false then
        (r, [("status", .str "idle"),
             ("message", .str "Waiting for start signal...")])
      else if info.ready = true then
        (r, setKey info.latest "status" (.str "ready"))
      else
        (r, [("status", .str "idle"), ("message", .str "Waiting...")])

/-- One element of the devices array produced by GET /devices.  last_update
is kept as the raw timestamp and seconds_ago as the elapsed naturals
(the source formats them as an ISO string and an "Ns" string). -/
structure DeviceSummary where
  esp_id : String
  status : String
  ready : Bool
  collecting : Bool
  last_update : ℕ
  seconds_ago : ℕ
  has_data : Bool
deriving DecidableEq, Repr

/-- GET /devices (list_devices): total count plus one summary per stored
session, reporting the stored status field verbatim. -/
def list_devices (r : Registry) (t : ℕ) : ℕ × List DeviceSummary :=
  (r.length,
   r.map fun kv =>
     { esp_id := kv.1
       status := kv.2.status
       ready := kv.2.ready
       collecting := kv.2.collecting
       last_update := kv.2.last_update
       seconds_ago := t - kv.2.last_update
       has_data := !kv.2.latest.isEmpty })

/-- DELETE /device/esp_id (clear_device): remove one session if present. -/
def clear_device (r : Registry) (id : String) : Registry × Payload :=
  if (rlookup r id).isSome then
    (rerase r id, [("status", .str "cleared"), ("esp_id", .str id)])
  else
    (r, [("status", .str "not_found"), ("esp_id", .str id)])

/-- DELETE /devices/clear (clear_all_devices): empty the registry,
acknowledging with the number of sessions that existed. -/
def clear_all_devices (r : Registry) : Registry × Payload :=
  ([], [("status", .str "cleared"), ("count", .num (r.length : ℚ))])

/-- process_ecg_to_restecg (src/backend/ecg_processing.py) in exact rational
arithmetic.  The source computes std = sqrt(variance) over floats and
compares the maximal absolute z-score with 1.0 and 2.0; since sqrt is
irrational, the nonzero-std branch here compares the maximal squared
deviation against var and 4 * var instead, which is equivalent over the
reals (both sides nonnegative).  The theorem process_ecg_eq_zscore below
proves this translation equal to a literal sqrt-based transcription. -/
def process_ecg_to_restecg (ecg : List ℚ) : ℕ :=
  if ecg.isEmpty then 0
  else
    let n : ℚ := ecg.length
    let mean : ℚ := ecg.sum / n
    let devsq : List ℚ := ecg.map fun x => (x - mean) ^ 2
    let var : ℚ := devsq.sum / n
    if var = 0 then
      -- std = 0: the source divides by the safe divisor 1, so z = x - mean
      let maxdev : ℚ := (ecg.map fun x => |x - mean|).foldr max 0
      if maxdev < 1 then 0 else if maxdev < 2 then 1 else 2
    else
      -- std = sqrt var > 0: max |z| < c iff max (x - mean)^2 < c^2 * var
      let maxsq : ℚ := devsq.foldr max 0
      if maxsq < var then 0 else if maxsq < 4 * var then 1 else 2

/-- Literal real-valued transcription of process_ecg_to_restecg, following
the source (and the spec's words) operation by operation: population standard
deviation via sqrt, safe divisor 1 when std is zero, maximal absolute
z-score compared against 1.0 and 2.0. -/
noncomputable def restecg_zscore (ecg : List ℚ) : ℕ :=
  if ecg.isEmpty then 0
  else
    let n : ℝ := ecg.length
    let mean : ℝ := (ecg.map fun x : ℚ => (x : ℝ)).sum / n
    let std : ℝ := Real.sqrt ((ecg.map fun x : ℚ => ((x : ℝ) - mean) ^ 2).sum / n)
    let z : List ℝ := ecg.map fun x : ℚ => ((x : ℝ) - mean) / (if std = 0 then 1 else std)
    let max_dev : ℝ := (z.map fun w => |w|).foldr max 0
    if max_dev < 1 then 0 else if max_dev < 2 then 1 else 2

/-- One request against the backend, for reasoning about reachable registry
states: the mutating endpoints plus the read-only listing. -/
inductive Op where
  | start (id : String) (t : ℕ)
  | upload (id : String) (p : Payload) (t : ℕ)
  | poll (id : String) (t : ℕ)
  | listAll (t : ℕ)
  | clearOne (id : String)
  | clearAll

/-- Effect of one request on the registry. -/
def applyOp (r : Registry) : Op → Registry
  | .start id t => (start_measurement r id t).1
  | .upload id p t => (receive_data r id p t).1
  | .poll id t => (get_latest r id t).1
  | .listAll _ => r
  | .clearOne id => (clear_device r id).1
  | .clearAll => (clear_all_devices r).1

/-- History flag per device id: true exactly when a successful data upload
has occurred since the session's last transition into collecting (or since
its creation/removal).  start resets it, a valid upload sets it, implicit
idle creation by a poll of an unknown id resets it, deletion resets it. -/
def uploadedFlag (r : Registry) (f : String → Bool) : Op → (String → Bool)
  | .start id _ => fun j => if j = id then false else f j
  | .upload id p _ =>
      fun j => if j = id ∧ (validateECG p).isOk = true then true else f j
  | .poll id _ =>
      fun j => if j = id ∧ (rlookup r id).isNone = true then false else f j
  | .listAll _ => f
  | .clearOne id => fun j => if j = id then false else f j
  | .clearAll => fun _ => false

/-- One step of executing a request while tracking the upload-history flag. -/
def stepOp (s : Registry × (String → Bool)) (op : Op) : Registry × (String → Bool) :=
  (applyOp s.1 op, uploadedFlag s.1 s.2 op)

/-- Execute a request trace from the initial empty registry (server start),
returning the final registry together with the upload-history flags. -/
def execOps (ops : List Op) : Registry × (String → Bool) :=
  ops.foldl stepOp ([], fun _ => false)

/-- The device ids registered in a registry, in insertion order. -/
def rkeys (r : Registry) : List String := r.map Prod.fst

/-- A concrete valid upload payload used to instantiate theorems. -/
def samplePayload : Payload :=
  [("hr", .num 72), ("spo2", .num 98), ("ecg", .arr [.num 1, .num 2, .num 3])]

/-- The ECGData record that samplePayload validates to. -/
def sampleECG : ECGData :=
  { hr := 72, spo2 := 98, ecg := [1, 2, 3], rest_ecg := some 0, timestamp := none }

/-- An upload payload whose ecg field is a list of numeric strings — not a
sequence of numbers — which pydantic's lax coercion nevertheless accepts. -/
def stringEcgPayload : Payload :=
  [("hr", .num 70), ("spo2", .num 97), ("ecg", .arr [.str "1.2"])]

theorem rlookup_rinsert_self : ∀ (r : Registry) (id : String) (e : Entry),
    rlookup (rinsert r id e) id = some e
  | [], _, _ => by simp [rinsert, rlookup]
  | (k, v) :: rest, id, e => by
      by_cases h : k = id <;>
        simp [rinsert, rlookup, h, rlookup_rinsert_self rest id e]

theorem rlookup_rinsert_ne : ∀ (r : Registry) (id j : String) (e : Entry),
    j ≠ id → rlookup (rinsert r id e) j = rlookup r j
  | [], id, j, e, h => by simp [rinsert, rlookup, Ne.symm h]
  | (k, v) :: rest, id, j, e, h => by
      by_cases hk : k = id
      · subst hk
        simp [rinsert, rlookup, Ne.symm h]
      · by_cases hj : k = j <;>
          simp [rinsert, rlookup, hk, hj, h, rlookup_rinsert_ne rest id j e h]

theorem rlookup_rerase_ne : ∀ (r : Registry) (id j : String),
    j ≠ id → rlookup (rerase r id) j = rlookup r j
  | [], _, _, _ => rfl
  | (k, v) :: rest, id, j, h => by
      by_cases hk : k = id
      · subst hk
        simp [rerase, rlookup, Ne.symm h]
      · by_cases hj : k = j <;>
          simp [rerase, rlookup, hk, hj, h, rlookup_rerase_ne rest id j h]

theorem rlookup_eq_none_of_not_mem : ∀ (r : Registry) (id : String),
    id ∉ rkeys r → rlookup r id = none
  | [], _, _ => rfl
  | (k, v) :: rest, id, h => by
      have hk : k ≠ id := fun hh => h (by simp [rkeys, hh])
      have hr : id ∉ rkeys rest := fun hh => h (by simp [rkeys] at hh ⊢; exact Or.inr hh)
      simp [rlookup, hk, rlookup_eq_none_of_not_mem rest id hr]

theorem rlookup_rerase_self : ∀ (r : Registry) (id : String),
    (rkeys r).Nodup → rlookup (rerase r id) id = none
  | [], _, _ => rfl
  | (k, v) :: rest, id, h => by
      rw [show rkeys ((k, v) :: rest) = k :: rkeys rest from rfl,
          List.nodup_cons] at h
      by_cases hk : k = id
      · subst hk
        simpa [rerase] using rlookup_eq_none_of_not_mem rest k h.1
      · simp [rerase, rlookup, hk, rlookup_rerase_self rest id h.2]

theorem mem_rkeys_rinsert : ∀ (r : Registry) (id a : String) (e : Entry),
    a ∈ rkeys (rinsert r id e) → a ∈ rkeys r ∨ a = id
  | [], id, a, e, h => by
      rw [show rkeys (rinsert [] id e) = [id] from rfl] at h
      exact Or.inr (List.mem_singleton.mp h)
  | (k, v) :: rest, id, a, e, h => by
      by_cases hk : k = id
      · subst hk
        exact Or.inl (by rwa [show rinsert ((k, v) :: rest) k e
          = (k, e) :: rest from by simp [rinsert]] at h)
      · rw [show rinsert ((k, v) :: rest) id e
          = (k, v) :: rinsert rest id e from by simp [rinsert, hk],
          show rkeys ((k, v) :: rinsert rest id e)
          = k :: rkeys (rinsert rest id e) from rfl, List.mem_cons] at h
        rcases h with h | h
        · exact Or.inl (by rw [show rkeys ((k, v) :: rest)
            = k :: rkeys rest from rfl]; exact List.mem_cons.mpr (Or.inl h))
        · rcases mem_rkeys_rinsert rest id a e h with h' | h'
          · exact Or.inl (by rw [show rkeys ((k, v) :: rest)
              = k :: rkeys rest from rfl]; exact List.mem_cons.mpr (Or.inr h'))
          · exact Or.inr h'

theorem nodup_rkeys_rinsert : ∀ (r : Registry) (id : String) (e : Entry),
    (rkeys r).Nodup → (rkeys (rinsert r id e)).Nodup
  | [], id, e, _ => by
      rw [show rkeys (rinsert [] id e) = [id] from rfl]
      exact List.nodup_singleton id
  | (k, v) :: rest, id, e, h => by
      rw [show rkeys ((k, v) :: rest) = k :: rkeys rest from rfl,
          List.nodup_cons] at h
      by_cases hk : k = id
      · subst hk
        rw [show rinsert ((k, v) :: rest) k e
          = (k, e) :: rest from by simp [rinsert],
          show rkeys ((k, e) :: rest) = k :: rkeys rest from rfl,
          List.nodup_cons]
        exact h
      · have hmem : k ∉ rkeys (rinsert rest id e) := fun hm => by
          rcases mem_rkeys_rinsert rest id k e hm with hm' | hm'
          · exact h.1 hm'
          · exact hk hm'
        rw [show rinsert ((k, v) :: rest) id e
          = (k, v) :: rinsert rest id e from by simp [rinsert, hk],
          show rkeys ((k, v) :: rinsert rest id e)
          = k :: rkeys (rinsert rest id e) from rfl, List.nodup_cons]
        exact ⟨hmem, nodup_rkeys_rinsert rest id e h.2⟩

theorem rkeys_rerase_sublist : ∀ (r : Registry) (id : String),
    (rkeys (rerase r id)).Sublist (rkeys r)
  | [], _ => List.Sublist.refl _
  | (k, v) :: rest, id => by
      by_cases hk : k = id
      · rw [show rerase ((k, v) :: rest) id = rest from by simp [rerase, hk],
          show rkeys ((k, v) :: rest) = k :: rkeys rest from rfl]
        exact List.sublist_cons_self k (rkeys rest)
      · rw [show rerase ((k, v) :: rest) id
          = (k, v) :: rerase rest id from by simp [rerase, hk],
          show rkeys ((k, v) :: rerase rest id)
          = k :: rkeys (rerase rest id) from rfl,
          show rkeys ((k, v) :: rest) = k :: rkeys rest from rfl]
        exact List.Sublist.cons₂ k (rkeys_rerase_sublist rest id)

theorem nodup_rkeys_rerase (r : Registry) (id : String)
    (h : (rkeys r).Nodup) : (rkeys (rerase r id)).Nodup :=
  (rkeys_rerase_sublist r id).nodup h

theorem plookup_setKey_self : ∀ (p : Payload) (k : String) (v : JVal),
    plookup (setKey p k v) k = some v
  | [], _, _ => by simp [setKey, plookup]
  | (k', v') :: rest, k, v => by
      by_cases h : k' = k <;>
        simp [setKey, plookup, h, plookup_setKey_self rest k v]

theorem plookup_setKey_ne : ∀ (p : Payload) (k j : String) (v : JVal),
    j ≠ k → plookup (setKey p k v) j = plookup p j
  | [], k, j, v, h => by simp [setKey, plookup, Ne.symm h]
  | (k', v') :: rest, k, j, v, h => by
      by_cases hk : k' = k
      · subst hk
        simp [setKey, plookup, Ne.symm h]
      · by_cases hj : k' = j <;>
          simp [setKey, plookup, hk, hj, h, plookup_setKey_ne rest k j v h]

theorem validateECG_ok_ne_nil (p : Payload) (d : ECGData)
    (h : validateECG p = Except.ok d) : p ≠ [] := by
  rintro rfl
  simp [validateECG, plookup] at h

theorem get_latest_existing_fst (r : Registry) (id : String) (e : Entry)
    (t : ℕ) (h : rlookup r id = some e) : (get_latest r id t).1 = r := by
  simp only [get_latest, h]
  split_ifs <;> rfl

/-- Combined well-formedness and history invariant of a registry paired with
its upload-history flags: device ids are unique, and a session's stored
payload is non-empty exactly when its stored status is ready and a valid
upload has happened since its last transition into collecting state. -/
def RegInv (s : Registry × (String → Bool)) : Prop :=
  (rkeys s.1).Nodup ∧
  ∀ id e, rlookup s.1 id = some e →
    ((e.latest ≠ []) ↔ (e.status = "ready" ∧ s.2 id = true))

theorem regInv_step (s : Registry × (String → Bool)) (op : Op)
    (h : RegInv s) : RegInv (stepOp s op) := by
  obtain ⟨r, f⟩ := s
  obtain ⟨hwf, hinv⟩ := h
  cases op with
  | start id t =>
      refine ⟨nodup_rkeys_rinsert r id _ hwf, ?_⟩
      intro j e hj
      simp only [stepOp, applyOp, start_measurement, uploadedFlag] at hj ⊢
      by_cases hji : j = id
      · subst hji
        rw [rlookup_rinsert_self] at hj
        injection hj with hj
        subst hj
        simp
      · rw [rlookup_rinsert_ne r id j _ hji] at hj
        simpa [hji] using hinv j e hj
  | upload id p t =>
      cases hv : validateECG p with
      | ok d =>
          refine ⟨?_, ?_⟩
          · simpa [stepOp, applyOp, receive_data, hv] using
              nodup_rkeys_rinsert r id _ hwf
          · intro j e hj
            simp only [stepOp, applyOp, receive_data, hv, uploadedFlag] at hj ⊢
            by_cases hji : j = id
            · subst hji
              rw [rlookup_rinsert_self] at hj
              injection hj with hj
              subst hj
              simp [validateECG_ok_ne_nil p d hv, hv, Except.isOk, Except.toBool]
            · rw [rlookup_rinsert_ne r id j _ hji] at hj
              simpa [hji] using hinv j e hj
      | error msg =>
          refine ⟨by simpa [stepOp, applyOp, receive_data, hv] using hwf, ?_⟩
          intro j e hj
          simp only [stepOp, applyOp, receive_data, hv, uploadedFlag] at hj ⊢
          simpa [hv, Except.isOk, Except.toBool] using hinv j e hj
  | poll id t =>
      cases hl : rlookup r id with
      | none =>
          refine ⟨?_, ?_⟩
          · simpa [stepOp, applyOp, get_latest, hl] using
              nodup_rkeys_rinsert r id _ hwf
          · intro j e hj
            simp only [stepOp, applyOp, get_latest, hl, uploadedFlag] at hj ⊢
            by_cases hji : j = id
            · subst hji
              rw [rlookup_rinsert_self] at hj
              injection hj with hj
              subst hj
              simp
            · rw [rlookup_rinsert_ne r id j _ hji] at hj
              simpa [hji] using hinv j e hj
      | some info =>
          have hfst : (get_latest r id t).1 = r :=
            get_latest_existing_fst r id info t hl
          refine ⟨by simpa [stepOp, applyOp, hfst] using hwf, ?_⟩
          intro j e hj
          simp only [stepOp, applyOp, hfst, uploadedFlag, hl] at hj ⊢
          simpa using hinv j e hj
  | listAll t =>
      exact ⟨hwf, fun j e hj => by
        simpa [stepOp, applyOp, uploadedFlag] using hinv j e (by simpa [stepOp, applyOp] using hj)⟩
  | clearOne id =>
      cases hl : rlookup r id with
      | none =>
          refine ⟨by simpa [stepOp, applyOp, clear_device, hl] using hwf, ?_⟩
          intro j e hj
          simp only [stepOp, applyOp, clear_device, hl, uploadedFlag,
            Option.isSome_none, Bool.false_eq_true, if_false] at hj ⊢
          by_cases hji : j = id
          · subst hji
            rw [hl] at hj
            exact absurd hj (by simp)
          · simpa [hji] using hinv j e hj
      | some info =>
          refine ⟨?_, ?_⟩
          · simpa [stepOp, applyOp, clear_device, hl] using
              nodup_rkeys_rerase r id hwf
          · intro j e hj
            simp only [stepOp, applyOp, clear_device, hl, uploadedFlag,
              Option.isSome_some, if_true] at hj ⊢
            by_cases hji : j = id
            · subst hji
              rw [rlookup_rerase_self r j hwf] at hj
              exact absurd hj (by simp)
            · rw [rlookup_rerase_ne r id j hji] at hj
              simpa [hji] using hinv j e hj
  | clearAll =>
      refine ⟨by simp [stepOp, applyOp, clear_all_devices, rkeys], ?_⟩
      intro j e hj
      simp [stepOp, applyOp, clear_all_devices, rlookup] at hj

theorem regInv_execOps (ops : List Op) : RegInv (execOps ops) := by
  have main : ∀ (l : List Op) (s : Registry × (String → Bool)),
      RegInv s → RegInv (l.foldl stepOp s) := by
    intro l
    induction l with
    | nil => exact fun s hs => hs
    | cons op rest ih => exact fun s hs => ih _ (regInv_step s op hs)
  refine main ops ([], fun _ => false) ⟨by simp [rkeys], ?_⟩
  intro id e h
  simp [rlookup] at h

theorem mem_list_devices_of_rlookup : ∀ (r : Registry) (t : ℕ) (id : String)
    (e : Entry), rlookup r id = some e →
    (id, e.status) ∈ ((list_devices r t).2.map fun s => (s.esp_id, s.status))
  | [], _, _, _, h => by simp [rlookup] at h
  | (k, v) :: rest, t, id, e, h => by
      by_cases hk : k = id
      · subst hk
        rw [show rlookup ((k, v) :: rest) k = some v from by simp [rlookup]] at h
        injection h with h
        subst h
        simp [list_devices]
      · rw [show rlookup ((k, v) :: rest) id
          = rlookup rest id from by simp [rlookup, hk]] at h
        have := mem_list_devices_of_rlookup rest t id e h
        simp only [list_devices, List.map_cons, List.mem_cons]
        exact Or.inr (by simpa [list_devices] using this)

/-- C1: for every session id and valid payload, StartSignal(id), then
Upload(id, payload), then a Poll(id) before the staleness threshold elapses
reports status ready and returns the uploaded payload plus a ready status
tag: the status key of the response carries ready and every other key keeps
exactly its uploaded value. -/
theorem start_upload_poll_ready (r : Registry) (id : String) (p : Payload)
    (d : ECGData) (t0 t1 t2 : ℕ) (hvalid : validateECG p = Except.ok d)
    (hfresh : t2 - t1 ≤ 300) :
    plookup (get_latest (receive_data (start_measurement r id t0).1 id p t1).1 id t2).2 "status"
      = some (JVal.str "ready") ∧
    ∀ k, k ≠ "status" →
      plookup (get_latest (receive_data (start_measurement r id t0).1 id p t1).1 id t2).2 k
        = plookup p k := by
  have hr2 : (receive_data (start_measurement r id t0).1 id p t1).1
      = rinsert (start_measurement r id t0).1 id
          { latest := p, ready := true, last_update := t1,
            status := "ready", collecting := false } := by
    simp [receive_data, hvalid]
  have hpoll : (get_latest (receive_data (start_measurement r id t0).1 id p t1).1 id t2).2
      = setKey p "status" (JVal.str "ready") := by
    rw [hr2]
    simp [get_latest, rlookup_rinsert_self, Nat.not_lt.mpr hfresh]
  rw [hpoll]
  exact ⟨plookup_setKey_self p "status" _,
    fun k hk => plookup_setKey_ne p "status" k _ hk⟩

theorem start_upload_poll_ready_witness :
    plookup (get_latest (receive_data (start_measurement [] "esp1" 0).1 "esp1"
        samplePayload 5).1 "esp1" 100).2 "status" = some (JVal.str "ready") :=
  (start_upload_poll_ready [] "esp1" samplePayload sampleECG 0 5 100 rfl
    (by decide)).1

/-- C2: StartSignal succeeds from every prior registry state (unknown id,
idle, collecting, ready or over-age ready), resetting the stored payload to
empty, refreshing last_update to the current time, and an immediately
following Poll reports collecting. -/
theorem start_then_poll_collecting (r : Registry) (id : String) (t tp : ℕ) :
    rlookup (start_measurement r id t).1 id
      = some { latest := [], ready := false, last_update := t,
               status := "collecting", collecting := true } ∧
    plookup (start_measurement r id t).2 "status" = some (JVal.str "collecting") ∧
    plookup (get_latest (start_measurement r id t).1 id tp).2 "status"
      = some (JVal.str "collecting") := by
  refine ⟨rlookup_rinsert_self r id _, rfl, ?_⟩
  have hlook : rlookup (start_measurement r id t).1 id
      = some { latest := [], ready := false, last_update := t,
               status := "collecting", collecting := true } :=
    rlookup_rinsert_self r id _
  simp [get_latest, hlook, plookup]

theorem asFloatList_eq_none_of_not_arr (v : JVal) (h : isArr v = false) :
    asFloatList v = none := by
  cases v with
  | arr xs => simp [isArr] at h
  | num q => rfl
  | str s => rfl
  | bool b => rfl
  | null => rfl
  | obj fields => rfl

theorem asFloat_eq_none_of_neverFloat (w : JVal) (h : neverFloat w = true) :
    asFloat w = none := by
  cases w with
  | null => rfl
  | arr xs => rfl
  | obj fields => rfl
  | num q => simp [neverFloat] at h
  | str s => simp [neverFloat] at h
  | bool b => simp [neverFloat] at h

theorem mapM_asFloat_eq_none : ∀ (xs : List JVal) (w : JVal),
    w ∈ xs → asFloat w = none → xs.mapM asFloat = none
  | [], w, hw, _ => absurd hw (List.not_mem_nil w)
  | v :: xs, w, hw, hn => by
      rw [List.mapM_cons]
      rcases List.mem_cons.mp hw with rfl | hw'
      · simp [hn]
      · cases hv : asFloat v with
        | none => simp [hv]
        | some q =>
            simp only [mapM_asFloat_eq_none xs w hw' hn]
            rfl

/-- C3 counterexample: an upload whose ecg field is the list of numeric
strings ["1.2"] — not a sequence of numbers, so the claim demands a
validation failure with the registry unchanged — is in fact accepted by the
lax coercion of ECGData(**payload): the call acknowledges success and
rewrites the (previously empty) registry to a ready session holding the
payload. -/
theorem numeric_string_ecg_accepted_cex :
    (receive_data [] "esp1" stringEcgPayload 0).1
      = [("esp1", { latest := stringEcgPayload, ready := true,
                    last_update := 0, status := "ready",
                    collecting := false })] ∧
    (receive_data [] "esp1" stringEcgPayload 0).2
      = Except.ok [("status", JVal.str "ok"),
                   ("message", JVal.str "Data received successfully"),
                   ("esp_id", JVal.str "esp1")] :=
  ⟨rfl, rfl⟩

/-- C3 amended: an upload whose payload is missing hr, spo2 or the ecg
sample sequence, or whose ecg value is not a list, or whose ecg list
contains an element that no pydantic coercion accepts as a number (null, a
nested list, or a nested object), fails with a validation error carrying a
descriptive message, and the registry — hence the entry for that id with
its state, payload and last_update — is exactly what it was before the
call.  (An ecg list of numeric strings is not rejected: pydantic's lax
validation coerces it and the upload succeeds, per the counterexample.) -/
theorem invalid_upload_rejected (r : Registry) (id : String) (p : Payload)
    (t : ℕ)
    (hbad : plookup p "hr" = none ∨ plookup p "spo2" = none ∨
      plookup p "ecg" = none ∨
      (∃ v, plookup p "ecg" = some v ∧ isArr v = false) ∨
      (∃ xs w, plookup p "ecg" = some (JVal.arr xs) ∧ w ∈ xs ∧
        neverFloat w = true)) :
    (receive_data r id p t).1 = r ∧
    ∃ msg, msg ≠ "" ∧
      (receive_data r id p t).2 = Except.error ("Invalid data format: " ++ msg) := by
  suffices hsuff : ∃ e, validateECG p = Except.error e ∧ e ≠ "" by
    obtain ⟨e, he, hne⟩ := hsuff
    exact ⟨by simp [receive_data, he], e, hne, by simp [receive_data, he]⟩
  have hbad' : plookup p "hr" = none ∨ plookup p "spo2" = none ∨
      plookup p "ecg" = none ∨
      (∃ v, plookup p "ecg" = some v ∧ asFloatList v = none) := by
    rcases hbad with h | h | h | ⟨v, hv, hva⟩ | ⟨xs, w, hv, hw, hnf⟩
    · exact Or.inl h
    · exact Or.inr (Or.inl h)
    · exact Or.inr (Or.inr (Or.inl h))
    · exact Or.inr (Or.inr (Or.inr
        ⟨v, hv, asFloatList_eq_none_of_not_arr v hva⟩))
    · exact Or.inr (Or.inr (Or.inr ⟨JVal.arr xs, hv,
        mapM_asFloat_eq_none xs w hw (asFloat_eq_none_of_neverFloat w hnf)⟩))
  rcases hbad' with h | h | h | ⟨v, hv, hfl⟩
  · exact ⟨"hr: field required", by simp [validateECG, h], by decide⟩
  · cases h1 : plookup p "hr" with
    | none => exact ⟨"hr: field required", by simp [validateECG, h1], by decide⟩
    | some vhr =>
      cases h2 : asFloat vhr with
      | none =>
          exact ⟨"hr: value is not a valid float",
            by simp [validateECG, h1, h2], by decide⟩
      | some hrq =>
          exact ⟨"spo2: field required",
            by simp [validateECG, h1, h2, h], by decide⟩
  · cases h1 : plookup p "hr" with
    | none => exact ⟨"hr: field required", by simp [validateECG, h1], by decide⟩
    | some vhr =>
      cases h2 : asFloat vhr with
      | none =>
          exact ⟨"hr: value is not a valid float",
            by simp [validateECG, h1, h2], by decide⟩
      | some hrq =>
        cases h3 : plookup p "spo2" with
        | none =>
            exact ⟨"spo2: field required",
              by simp [validateECG, h1, h2, h3], by decide⟩
        | some vs =>
          cases h4 : asFloat vs with
          | none =>
              exact ⟨"spo2: value is not a valid float",
                by simp [validateECG, h1, h2, h3, h4], by decide⟩
          | some sq =>
              exact ⟨"ecg: field required",
                by simp [validateECG, h1, h2, h3, h4, h], by decide⟩
  · cases h1 : plookup p "hr" with
    | none => exact ⟨"hr: field required", by simp [validateECG, h1], by decide⟩
    | some vhr =>
      cases h2 : asFloat vhr with
      | none =>
          exact ⟨"hr: value is not a valid float",
            by simp [validateECG, h1, h2], by decide⟩
      | some hrq =>
        cases h3 : plookup p "spo2" with
        | none =>
            exact ⟨"spo2: field required",
              by simp [validateECG, h1, h2, h3], by decide⟩
        | some vs =>
          cases h4 : asFloat vs with
          | none =>
              exact ⟨"spo2: value is not a valid float",
                by simp [validateECG, h1, h2, h3, h4], by decide⟩
          | some sq =>
              exact ⟨"ecg: value is not a valid list of floats",
                by simp [validateECG, h1, h2, h3, h4, hv, hfl], by decide⟩

theorem invalid_upload_rejected_witness :
    (receive_data [] "esp1" [("hr", JVal.num 70), ("spo2", JVal.num 97)] 0).1 = [] ∧
    ∃ msg, msg ≠ "" ∧
      (receive_data [] "esp1" [("hr", JVal.num 70), ("spo2", JVal.num 97)] 0).2
        = Except.error ("Invalid data format: " ++ msg) :=
  invalid_upload_rejected [] "esp1" [("hr", JVal.num 70), ("spo2", JVal.num 97)] 0
    (Or.inr (Or.inr (Or.inl rfl)))

/-- C4: a valid upload on an existing session — whatever its prior state —
unconditionally moves it to ready with the uploaded payload stored and
last_update refreshed to the upload time, acknowledging success. -/
theorem upload_any_state_to_ready (r : Registry) (id : String) (e : Entry)
    (p : Payload) (d : ECGData) (t : ℕ) (_hex : rlookup r id = some e)
    (hvalid : validateECG p = Except.ok d) :
    rlookup (receive_data r id p t).1 id
      = some { latest := p, ready := true, last_update := t,
               status := "ready", collecting := false } ∧
    (receive_data r id p t).2 = Except.ok
      [("status", JVal.str "ok"),
       ("message", JVal.str "Data received successfully"),
       ("esp_id", JVal.str id)] :=
  ⟨by simp [receive_data, hvalid, rlookup_rinsert_self],
   by simp [receive_data, hvalid]⟩

theorem upload_any_state_to_ready_witness :
    rlookup (receive_data (start_measurement [] "esp1" 0).1 "esp1" samplePayload 5).1 "esp1"
      = some { latest := samplePayload, ready := true, last_update := 5,
               status := "ready", collecting := false } :=
  (upload_any_state_to_ready (start_measurement [] "esp1" 0).1 "esp1"
    { latest := [], ready := false, last_update := 0,
      status := "collecting", collecting := true }
    samplePayload sampleECG 5 rfl rfl).1

/-- C5 counterexample: with one session uploaded at time 0 and listed at
time 1000 (age 1000 exceeds the 300 threshold), ListSessions reports the
stored status ready while Poll on the very same registry reports stale —
the listing does not apply the staleness recomputation the claim asserts. -/
theorem list_devices_stale_cex :
    (list_devices (receive_data [] "esp1" samplePayload 0).1 1000).2.map
        DeviceSummary.status = ["ready"] ∧
    plookup (get_latest (receive_data [] "esp1" samplePayload 0).1 "esp1" 1000).2 "status"
      = some (JVal.str "stale") :=
  ⟨rfl, rfl⟩

/-- C5 amended: ListSessions returns one summary per registered id, reporting
the stored logical state verbatim — without the lazy staleness recomputation
that Poll applies, so an over-age ready session is still listed as ready —
together with the payload-presence flag and the elapsed time since
last_update. -/
theorem list_devices_reports_stored (r : Registry) (t : ℕ) :
    (list_devices r t).1 = r.length ∧
    (list_devices r t).2.map (fun s => (s.esp_id, s.status, s.has_data, s.seconds_ago))
      = r.map (fun kv => (kv.1, kv.2.status, !kv.2.latest.isEmpty, t - kv.2.last_update)) :=
  ⟨rfl, by simp [list_devices]⟩

/-- C6: polling an id never seen before implicitly creates its session in
idle state, reports idle, and a subsequent ListSessions includes that id
with state idle. -/
theorem poll_unknown_creates_idle (r : Registry) (id : String) (t tl : ℕ)
    (hnew : rlookup r id = none) :
    plookup (get_latest r id t).2 "status" = some (JVal.str "idle") ∧
    rlookup (get_latest r id t).1 id
      = some { latest := [], ready := false, last_update := t,
               status := "idle", collecting := false } ∧
    (id, "idle") ∈ ((list_devices (get_latest r id t).1 tl).2.map
      fun s => (s.esp_id, s.status)) := by
  have h1 : (get_latest r id t).1
      = rinsert r id { latest := [], ready := false, last_update := t,
                       status := "idle", collecting := false } := by
    simp [get_latest, hnew]
  have h2 : rlookup (get_latest r id t).1 id
      = some { latest := [], ready := false, last_update := t,
               status := "idle", collecting := false } := by
    rw [h1]
    exact rlookup_rinsert_self r id _
  refine ⟨by simp [get_latest, hnew, plookup], h2, ?_⟩
  simpa using mem_list_devices_of_rlookup (get_latest r id t).1 tl id _ h2

theorem poll_unknown_creates_idle_witness :
    plookup (get_latest [] "esp9" 3).2 "status" = some (JVal.str "idle") :=
  (poll_unknown_creates_idle [] "esp9" 3 7 rfl).1

/-- C7: polling an existing session leaves the registry — stored state,
stored payload and last_update of every session — entirely unchanged; in
particular reporting stale does not mutate the stored state, and
last_update is only refreshed by start and upload, never by a poll. -/
theorem poll_existing_preserves_registry (r : Registry) (id : String)
    (e : Entry) (t : ℕ) (hex : rlookup r id = some e) :
    (get_latest r id t).1 = r :=
  get_latest_existing_fst r id e t hex

theorem poll_existing_preserves_registry_witness :
    (get_latest (start_measurement [] "esp1" 0).1 "esp1" 400).1
      = (start_measurement [] "esp1" 0).1 :=
  poll_existing_preserves_registry (start_measurement [] "esp1" 0).1 "esp1"
    { latest := [], ready := false, last_update := 0,
      status := "collecting", collecting := true } 400 rfl

/-- C9: in every registry state reachable by any trace of start, upload,
poll, list and clear operations from server start, a session's stored
payload is non-empty if and only if its stored state is ready (the state
reported to pollers as Ready, or Stale once over-age) and a valid data
upload has occurred since its last transition into collecting. -/
theorem payload_present_iff_uploaded (ops : List Op) (id : String) (e : Entry)
    (h : rlookup (execOps ops).1 id = some e) :
    (e.latest ≠ []) ↔ (e.status = "ready" ∧ (execOps ops).2 id = true) :=
  (regInv_execOps ops).2 id e h

theorem payload_present_iff_uploaded_witness :
    samplePayload ≠ [] :=
  (payload_present_iff_uploaded
    [Op.start "esp1" 0, Op.upload "esp1" samplePayload 10] "esp1"
    { latest := samplePayload, ready := true, last_update := 10,
      status := "ready", collecting := false }
    rfl).mpr ⟨rfl, rfl⟩

/-- C10: a valid upload for an id with no existing session creates the
session directly in ready state with the payload stored and last_update
set — auto-creation is not limited to start signals and polls, and such a
session never passes through idle or collecting. -/
theorem upload_unknown_creates_ready (r : Registry) (id : String)
    (p : Payload) (d : ECGData) (t : ℕ) (_hnew : rlookup r id = none)
    (hvalid : validateECG p = Except.ok d) :
    rlookup (receive_data r id p t).1 id
      = some { latest := p, ready := true, last_update := t,
               status := "ready", collecting := false } := by
  simp [receive_data, hvalid, rlookup_rinsert_self]

theorem upload_unknown_creates_ready_witness :
    rlookup (receive_data [] "esp2" samplePayload 42).1 "esp2"
      = some { latest := samplePayload, ready := true, last_update := 42,
               status := "ready", collecting := false } :=
  upload_unknown_creates_ready [] "esp2" samplePayload sampleECG 42 rfl rfl

theorem foldr_max_lt_iff {α : Type} [LinearOrder α] :
    ∀ (m : List α) (a c : α), m.foldr max a < c ↔ (a < c ∧ ∀ x ∈ m, x < c)
  | [], a, c => by simp
  | x :: m, a, c => by
      simp only [List.foldr_cons, max_lt_iff, foldr_max_lt_iff m a c,
        List.mem_cons]
      constructor
      · rintro ⟨hx, ha, hm⟩
        refine ⟨ha, ?_⟩
        rintro y (rfl | hy)
        · exact hx
        · exact hm y hy
      · rintro ⟨ha, hm⟩
        exact ⟨hm x (Or.inl rfl), ha, fun y hy => hm y (Or.inr hy)⟩

theorem cast_list_sum : ∀ (m : List ℚ),
    ((m.sum : ℚ) : ℝ) = (m.map fun q : ℚ => (q : ℝ)).sum
  | [] => by simp
  | q :: m => by simp [cast_list_sum m]

theorem sum_eq_zero_all_zero : ∀ (g : List ℚ), (∀ q ∈ g, 0 ≤ q) → g.sum = 0 →
    ∀ q ∈ g, q = 0
  | [], _, _, q, hq => absurd hq (List.not_mem_nil q)
  | a :: g, hnn, hsum, q, hq => by
      rw [List.sum_cons] at hsum
      have hg : 0 ≤ g.sum :=
        List.sum_nonneg fun x hx => hnn x (List.mem_cons_of_mem a hx)
      have ha : 0 ≤ a := hnn a (List.mem_cons_self a g)
      rcases List.mem_cons.mp hq with rfl | hq'
      · linarith
      · exact sum_eq_zero_all_zero g
          (fun x hx => hnn x (List.mem_cons_of_mem a hx)) (by linarith) q hq'

theorem process_ecg_eq_zscore (l : List ℚ) :
    process_ecg_to_restecg l = restecg_zscore l := by
  by_cases hne : l = []
  · subst hne; rfl
  have hempty : l.isEmpty = false := by
    cases l with
    | nil => exact absurd rfl hne
    | cons a m => rfl
  simp only [process_ecg_to_restecg, restecg_zscore, hempty,
    Bool.false_eq_true, if_false]
  set nQ : ℚ := (l.length : ℚ) with hnQdef
  set meanQ : ℚ := l.sum / nQ with hmQdef
  set devsq : List ℚ := l.map fun x => (x - meanQ) ^ 2 with hdevdef
  set varQ : ℚ := devsq.sum / nQ with hvQdef
  set nR : ℝ := (l.length : ℝ) with hnRdef
  set meanR : ℝ := (l.map fun x : ℚ => (x : ℝ)).sum / nR with hmRdef
  set varR : ℝ := (l.map fun x : ℚ => ((x : ℝ) - meanR) ^ 2).sum / nR with hvRdef
  set S : ℝ := Real.sqrt varR with hSdef
  have hlen0 : l.length ≠ 0 := fun h => hne (List.length_eq_zero.mp h)
  have hnQ0 : (0 : ℚ) < nQ := by
    rw [hnQdef]
    exact_mod_cast Nat.pos_of_ne_zero hlen0
  have hnR0 : (0 : ℝ) < nR := by
    rw [hnRdef]
    exact_mod_cast Nat.pos_of_ne_zero hlen0
  have hmean : meanR = (meanQ : ℝ) := by
    rw [hmRdef, hmQdef, hnQdef, hnRdef, ← cast_list_sum l]
    push_cast
    ring
  have hdevcast : (l.map fun x : ℚ => ((x : ℝ) - meanR) ^ 2)
      = devsq.map fun q : ℚ => (q : ℝ) := by
    rw [hdevdef, List.map_map]
    refine List.map_congr_left ?_
    intro x _
    simp only [Function.comp, hmean]
    push_cast
    ring
  have hvar : (varQ : ℝ) = varR := by
    rw [hvQdef, hvRdef, hdevcast, ← cast_list_sum devsq, hnQdef, hnRdef]
    push_cast
    ring
  have hvarQnn : 0 ≤ varQ := by
    rw [hvQdef]
    refine div_nonneg ?_ hnQ0.le
    refine List.sum_nonneg ?_
    intro q hq
    rw [hdevdef] at hq
    obtain ⟨x, _, rfl⟩ := List.mem_map.mp hq
    positivity
  by_cases hv0 : varQ = 0
  · -- zero variance: every sample equals the mean, both sides classify 0
    have hsum0 : devsq.sum = 0 := by
      have h2 : devsq.sum / nQ = 0 := by rw [← hvQdef]; exact hv0
      rcases div_eq_zero_iff.mp h2 with h | h
      · exact h
      · exact absurd h hnQ0.ne'
    have hall : ∀ x ∈ l, x = meanQ := by
      intro x hx
      have hz := sum_eq_zero_all_zero devsq
        (fun q hq => by
          rw [hdevdef] at hq
          obtain ⟨y, _, rfl⟩ := List.mem_map.mp hq
          positivity)
        hsum0 ((x - meanQ) ^ 2)
        (by rw [hdevdef]; exact List.mem_map_of_mem _ hx)
      have := (pow_eq_zero_iff two_ne_zero).mp hz
      linarith [sub_eq_zero.mp this]
    have hvarR0 : varR = 0 := by rw [← hvar, hv0]; simp
    have hS0 : S = 0 := by rw [hSdef, hvarR0, Real.sqrt_zero]
    have hQc : (l.map fun x => |x - meanQ|).foldr max 0 < 1 := by
      rw [foldr_max_lt_iff]
      refine ⟨one_pos, ?_⟩
      intro q hq
      obtain ⟨x, hx, rfl⟩ := List.mem_map.mp hq
      rw [hall x hx]
      simp
    have hRc : (((l.map fun x : ℚ => ((x : ℝ) - meanR) / (if S = 0 then 1 else S)).map
        fun w => |w|).foldr max 0) < 1 := by
      rw [List.map_map, foldr_max_lt_iff]
      refine ⟨one_pos, ?_⟩
      intro w hw
      obtain ⟨x, hx, rfl⟩ := List.mem_map.mp hw
      simp [Function.comp, hS0, hmean, hall x hx]
    rw [if_pos hv0, if_pos hQc, if_pos hRc]
  · -- positive variance
    have hvpos : 0 < varQ := lt_of_le_of_ne hvarQnn (Ne.symm hv0)
    have hvarRpos : 0 < varR := by
      rw [← hvar]
      exact_mod_cast hvpos
    have hSpos : 0 < S := by rw [hSdef]; exact Real.sqrt_pos.mpr hvarRpos
    have hSne : S ≠ 0 := hSpos.ne'
    have hS2 : S ^ 2 = varR := by rw [hSdef]; exact Real.sq_sqrt hvarRpos.le
    have key : ∀ (cQ : ℚ) (cR : ℝ) (m : ℚ), (cQ : ℝ) = cR → cQ ^ 2 * varQ = m →
        0 < cQ →
        ((((l.map fun x : ℚ => ((x : ℝ) - meanR) / (if S = 0 then 1 else S)).map
            fun w => |w|).foldr max 0 < cR)
          ↔ devsq.foldr max 0 < m) := by
      intro cQ cR m hcR hm hc
      have hcRpos : (0 : ℝ) < (cQ : ℝ) := by exact_mod_cast hc
      have hiff : (((l.map fun x : ℚ => ((x : ℝ) - meanR) / (if S = 0 then 1 else S)).map
            fun w => |w|).foldr max 0 < (cQ : ℝ))
          ↔ devsq.foldr max 0 < cQ ^ 2 * varQ := by
        rw [List.map_map, foldr_max_lt_iff, foldr_max_lt_iff]
        have hleft : ∀ w ∈ l.map ((fun w => |w|) ∘ fun x : ℚ =>
            ((x : ℝ) - meanR) / (if S = 0 then 1 else S)),
            ∃ x ∈ l, |((x : ℝ) - (meanQ : ℝ))| / S = w := by
          intro w hw
          obtain ⟨x, hx, rfl⟩ := List.mem_map.mp hw
          exact ⟨x, hx, by simp [Function.comp, if_neg hSne, abs_div,
            abs_of_pos hSpos, hmean]⟩
        constructor
        · rintro ⟨-, h⟩
          refine ⟨by positivity, ?_⟩
          intro q hq
          rw [hdevdef] at hq
          obtain ⟨x, hx, rfl⟩ := List.mem_map.mp hq
          have hx2 := h _ (List.mem_map_of_mem ((fun w => |w|) ∘ fun x : ℚ =>
            ((x : ℝ) - meanR) / (if S = 0 then 1 else S)) hx)
          have hx3 : |((x : ℝ) - (meanQ : ℝ))| / S < (cQ : ℝ) := by
            simpa [Function.comp, if_neg hSne, abs_div, abs_of_pos hSpos,
              hmean] using hx2
          rw [div_lt_iff₀ hSpos] at hx3
          have h4 : |((x : ℝ) - (meanQ : ℝ))| ^ 2 < ((cQ : ℝ) * S) ^ 2 :=
            pow_lt_pow_left₀ hx3 (abs_nonneg _) two_ne_zero
          rw [sq_abs] at h4
          have h5 : ((x : ℝ) - (meanQ : ℝ)) ^ 2 < (cQ : ℝ) ^ 2 * varR := by
            calc ((x : ℝ) - (meanQ : ℝ)) ^ 2 < ((cQ : ℝ) * S) ^ 2 := h4
            _ = (cQ : ℝ) ^ 2 * S ^ 2 := by ring
            _ = (cQ : ℝ) ^ 2 * varR := by rw [hS2]
          rw [← hvar] at h5
          exact_mod_cast h5
        · rintro ⟨-, h⟩
          refine ⟨hcRpos, ?_⟩
          intro w hw
          obtain ⟨x, hx, rfl⟩ := hleft w hw
          have hq : (x - meanQ) ^ 2 < cQ ^ 2 * varQ := h _
            (by rw [hdevdef]; exact List.mem_map_of_mem _ hx)
          have hR : ((x : ℝ) - (meanQ : ℝ)) ^ 2 < (cQ : ℝ) ^ 2 * varR := by
            rw [← hvar]
            exact_mod_cast hq
          have h2 : ((x : ℝ) - (meanQ : ℝ)) ^ 2 < ((cQ : ℝ) * S) ^ 2 := by
            calc ((x : ℝ) - (meanQ : ℝ)) ^ 2 < (cQ : ℝ) ^ 2 * varR := hR
            _ = (cQ : ℝ) ^ 2 * S ^ 2 := by rw [hS2]
            _ = ((cQ : ℝ) * S) ^ 2 := by ring
          have h3 : |((x : ℝ) - (meanQ : ℝ))| < (cQ : ℝ) * S := by
            refine lt_of_pow_lt_pow_left₀ 2 (by positivity) ?_
            rw [sq_abs]
            exact h2
          rw [div_lt_iff₀ hSpos]
          exact h3
      rw [hcR] at hiff
      rw [hm] at hiff
      exact hiff
    have k1 := key 1 1 varQ (by norm_num) (by ring) one_pos
    have k2 := key 2 2 (4 * varQ) (by norm_num) (by ring) two_pos
    rw [if_neg hv0]
    by_cases hc1 : devsq.foldr max 0 < varQ
    · rw [if_pos hc1, if_pos (k1.mpr hc1)]
    · rw [if_neg hc1, if_neg (fun h => hc1 (k1.mp h))]
      by_cases hc2 : devsq.foldr max 0 < 4 * varQ
      · rw [if_pos hc2, if_pos (k2.mpr hc2)]
      · rw [if_neg hc2, if_neg (fun h => hc2 (k2.mp h))]

theorem process_ecg_replicate (c : ℚ) (k : ℕ) :
    process_ecg_to_restecg (List.replicate k c) = 0 := by
  cases k with
  | zero => rfl
  | succ j =>
    have hempty : (List.replicate (j + 1) c).isEmpty = false := rfl
    simp only [process_ecg_to_restecg, hempty, Bool.false_eq_true, if_false]
    have hmean : (List.replicate (j + 1) c).sum
        / ((List.replicate (j + 1) c).length : ℚ) = c := by
      rw [List.sum_replicate, List.length_replicate, nsmul_eq_mul]
      field_simp
    rw [hmean]
    have h1 : (List.map (fun x => (x - c) ^ 2) (List.replicate (j + 1) c)).sum
        / ((List.replicate (j + 1) c).length : ℚ) = 0 := by
      simp [List.map_replicate]
    rw [if_pos h1]
    have h2 : (List.map (fun x => |x - c|) (List.replicate (j + 1) c)).foldr
        max 0 < 1 := by
      rw [foldr_max_lt_iff]
      refine ⟨one_pos, ?_⟩
      intro q hq
      simp only [List.map_replicate] at hq
      rw [List.eq_of_mem_replicate hq]
      simp
    rw [if_pos h2]

/-- C8: process_ecg_to_restecg is a pure total function: it agrees pointwise
with the literal z-score classification over the reals (mean and population
standard deviation via sqrt, each sample z-scored with safe divisor 1 when
the standard deviation is exactly zero, the maximum absolute z-score mapped
by the thresholds 1.0 and 2.0); the empty sequence and every constant
sequence (such as [5,5,5,5]) yield 0, the documented extreme-outlier
sequence yields 2, and the result always lies in the categories 0, 1, 2. -/
theorem process_ecg_spec :
    (∀ l : List ℚ, process_ecg_to_restecg l = restecg_zscore l) ∧
    process_ecg_to_restecg [] = 0 ∧
    (∀ (c : ℚ) (k : ℕ), process_ecg_to_restecg (List.replicate k c) = 0) ∧
    process_ecg_to_restecg [5, 5, 5, 5] = 0 ∧
    process_ecg_to_restecg [0, 0, 0, 0, 0, 0, 0, 0, 0, 100] = 2 ∧
    ∀ l : List ℚ, process_ecg_to_restecg l ≤ 2 := by
  refine ⟨process_ecg_eq_zscore, rfl, process_ecg_replicate, ?_, ?_, ?_⟩
  · norm_num [process_ecg_to_restecg]
  · norm_num [process_ecg_to_restecg, List.foldr, max_def]
  · intro l
    simp only [process_ecg_to_restecg]
    split_ifs <;> omega

end IoTECG
